import Mathlib

/-!
Verification of the subway-crowding data pipeline (`data_loader.py`).

The pipeline loads a wide CSV of time-bucketed crowding percentages,
reshapes it to long format, parses the Korean time labels
(`"<hour>시<minute>분"`), and offers aggregate queries (peak, commute and
evening window averages, top-10 rankings).

Modelling conventions:
* a pandas `DataFrame` of long records is a `List Row`;
* a float `NaN` (pandas missing marker) is `Option.none`, so `crowding`
  is `Option ℚ`; real arithmetic is modelled over `ℚ`;
* pandas boolean filtering keeps row order, `iloc[0]` is `List.find?` /
  the head of the filtered list;
* comparisons against `NaN` are `false`, which the `Option` match in the
  hour filters reproduces.
-/

namespace Crowding

/-! ### Time-label parsing (`parse_time_column`, data_loader.py 59-75) -/

/-- Split a leading run of decimal digits (the greedy `\d+`). -/
def takeDigits : List Char → List Char × List Char
  | [] => ([], [])
  | c :: cs =>
    if c.isDigit then
      let p := takeDigits cs
      (c :: p.1, p.2)
    else ([], c :: cs)

/-- Numeric value of a digit run (e.g. `['3','0'] ↦ 30`). -/
def digitsToNat (ds : List Char) : Nat :=
  ds.foldl (fun n c => 10 * n + (c.toNat - 48)) 0

/-- Try to match the regex `(\d+)시(\d+)분` starting exactly at the head
of the character list; on success return the two captured numbers. -/
def matchTimeAt (s : List Char) : Option (Nat × Nat) :=
  let p1 := takeDigits s
  if p1.1.isEmpty then none
  else
    match p1.2 with
    | '시' :: r2 =>
      let p2 := takeDigits r2
      if p2.1.isEmpty then none
      else
        match p2.2 with
        | '분' :: _ => some (digitsToNat p1.1, digitsToNat p2.1)
        | _ => none
    | _ => none

/-- `re.search`: leftmost position at which `(\d+)시(\d+)분` matches. -/
def searchTime : List Char → Option (Nat × Nat)
  | [] => none
  | c :: cs =>
    match matchTimeAt (c :: cs) with
    | some r => some r
    | none => searchTime cs

/-- `parse_time_column` (data_loader.py 59-75): regex-search the label for
`(\d+)시(\d+)분`; on a match return (hour, minute) with hour 0 remapped to
24 (post-midnight rollover); otherwise `(None, None)`. -/
def parse_time_column (s : String) : Option Nat × Option Nat :=
  match searchTime s.data with
  | some (h, m) => (some (if h = 0 then 24 else h), some m)
  | none => (none, none)

/-- `time_order = hour*60 + minute` (data_loader.py 143); `NaN` (here
`none`) propagates when hour or minute is missing. -/
def time_order : Option Nat × Option Nat → Option Nat
  | (some h, some m) => some (h * 60 + m)
  | _ => none

/-! ### The canonical long record -/

/-- One row of the long-format table produced by `load_data`. -/
structure Row where
  dayType : String        -- 요일구분
  line : String           -- 호선
  stationNo : String      -- 역번호
  station : String        -- 역명
  direction : String      -- 상하선구분
  time : String           -- original time-bucket label
  hour : Option Nat       -- parsed hour (NaN when the label did not parse)
  minute : Option Nat     -- parsed minute
  crowding : Option ℚ     -- crowding %, `none` = missing (NaN)
deriving DecidableEq

/-- `time_order` of a row. -/
def Row.timeOrder (r : Row) : Option Nat :=
  match r.hour, r.minute with
  | some h, some m => some (h * 60 + m)
  | _, _ => none

/-! ### Peak (`calculate_peak`, data_loader.py 188-207) -/

/-- The non-missing crowding values of a frame (pandas `dropna` column). -/
def crowdingVals (df : List Row) : List ℚ :=
  df.filterMap (fun r => r.crowding)

/-- Maximum of a list of rationals (`Series.max` over non-missing
values); `none` on the empty list. -/
def listMax : List ℚ → Option ℚ
  | [] => none
  | x :: xs =>
    match listMax xs with
    | none => some x
    | some m => some (max x m)

/-- `calculate_peak` (data_loader.py 188-207): `(0, "-")` when the frame
is empty or all crowding values are missing; otherwise the maximal
non-missing crowding together with the time label of the FIRST row (in
frame order, pandas `iloc[0]`) attaining it. -/
def calculate_peak (df : List Row) : ℚ × String :=
  match listMax (crowdingVals df) with
  | none => (0, "-")
  | some peak =>
    match (df.filter (fun r => r.crowding.isSome)).find?
        (fun r => decide (r.crowding = some peak)) with
    | some r => (peak, r.time)
    | none => (0, "-")

/-! ### Windowed averages (data_loader.py 210-257) -/

/-- Mean of a list of rationals; `none` on the empty list (pandas
`Series.mean` of an all-`NaN`/empty series is `NaN`). -/
def meanQ (xs : List ℚ) : Option ℚ :=
  if xs.isEmpty then none else some (xs.sum / (xs.length : ℚ))

/-- `Series.mean` with `skipna`: mean over the non-missing crowding
values, `NaN` (`none`) when there are none. -/
def seriesMean (df : List Row) : Option ℚ :=
  meanQ (crowdingVals df)

/-- `df['hour'] >= n`: false for `NaN` hour, as in pandas. -/
def hourGe (r : Row) (n : Nat) : Bool :=
  match r.hour with
  | some h => decide (n ≤ h)
  | none => false

/-- `df['hour'] <= n`: false for `NaN` hour. -/
def hourLe (r : Row) (n : Nat) : Bool :=
  match r.hour with
  | some h => decide (h ≤ n)
  | none => false

/-- `df['hour'] < n`: false for `NaN` hour. -/
def hourLt (r : Row) (n : Nat) : Bool :=
  match r.hour with
  | some h => decide (h < n)
  | none => false

/-- The hour filter of `calculate_commute_avg` (data_loader.py 222-227):
`7 <= hour <= 9` when `include_9`, else `7 <= hour < 9`. -/
def commute_filter (df : List Row) (include_9 : Bool) : List Row :=
  if include_9 then df.filter (fun r => hourGe r 7 && hourLe r 9)
  else df.filter (fun r => hourGe r 7 && hourLt r 9)

/-- `calculate_commute_avg` (data_loader.py 210-232). The float result is
modelled as `Option ℚ`: `some q` for an ordinary float, `none` for `NaN`
(which `Series.mean` yields when every value in the window is missing). -/
def calculate_commute_avg (df : List Row) (include_9 : Bool) : Option ℚ :=
  if df.isEmpty then some 0
  else
    let tf := commute_filter df include_9
    if tf.isEmpty then some 0
    else seriesMean tf

/-- The hour filter of `calculate_evening_avg` (data_loader.py 247-252):
`17 <= hour <= 20` when `include_20`, else `17 <= hour < 20`. -/
def evening_filter (df : List Row) (include_20 : Bool) : List Row :=
  if include_20 then df.filter (fun r => hourGe r 17 && hourLe r 20)
  else df.filter (fun r => hourGe r 17 && hourLt r 20)

/-- `calculate_evening_avg` (data_loader.py 235-257), modelled like
`calculate_commute_avg`. -/
def calculate_evening_avg (df : List Row) (include_20 : Bool) : Option ℚ :=
  if df.isEmpty then some 0
  else
    let tf := evening_filter df include_20
    if tf.isEmpty then some 0
    else seriesMean tf

/-! ### Top-10 peak ranking (`get_peak_top10`, data_loader.py 260-301) -/

/-- The groupby key of `get_peak_top10`:
(호선, 역명, 상하선구분, 요일구분) = (line, station, direction, dayType). -/
abbrev GroupKey := String × String × String × String

/-- Key of a row. -/
def groupKey (r : Row) : GroupKey :=
  (r.line, r.station, r.direction, r.dayType)

/-- Lexicographic comparison of group keys (pandas `groupby(sort=True)`
orders the groups by their key tuples). -/
def keyLe (a b : GroupKey) : Bool :=
  decide (a.1 < b.1) ||
    (decide (a.1 = b.1) &&
      (decide (a.2.1 < b.2.1) ||
        (decide (a.2.1 = b.2.1) &&
          (decide (a.2.2.1 < b.2.2.1) ||
            (decide (a.2.2.1 = b.2.2.1) && decide (a.2.2.2 ≤ b.2.2.2))))))

/-- One output row of `get_peak_top10`. -/
structure RankedPeak where
  rank : Nat          -- 순위
  line : String       -- 호선
  station : String    -- 역명
  direction : String  -- 방향
  dayType : String    -- 요일
  peak : ℚ            -- 피크혼잡
  peakTime : String   -- 피크시간
deriving DecidableEq

/-- `get_peak_top10` (data_loader.py 260-301): group by
(line, station, direction, dayType); per group the peak value and time
(the inner `get_peak_info` repeats the body of `calculate_peak`); sort
groups descending by peak, keep the first 10, attach ranks 1..n.

pandas `sort_values` defaults to numpy quicksort, whose order among
equal peak values is not specified; the model uses the stable
`mergeSort`, and no theorem below relies on its tie behaviour. -/
def get_peak_top10 (df : List Row) : List RankedPeak :=
  if df.isEmpty then []
  else
    let keys := ((df.map groupKey).dedup).mergeSort keyLe
    let grouped := keys.map
      (fun k => (k, calculate_peak (df.filter (fun r => decide (groupKey r = k)))))
    let sorted := grouped.mergeSort (fun a b => decide (b.2.1 ≤ a.2.1))
    let top := sorted.take 10
    top.enum.map (fun ie =>
      { rank := ie.1 + 1, line := ie.2.1.1, station := ie.2.1.2.1,
        direction := ie.2.1.2.2.1, dayType := ie.2.1.2.2.2,
        peak := ie.2.2.1, peakTime := ie.2.2.2 })

/-! ### Encoding fallback (`load_csv_with_encoding`, data_loader.py 40-56) -/

/-- Outcome of one `pd.read_csv(filepath, encoding=e)` attempt:
success with a parsed table, a `UnicodeDecodeError`, or any other
exception with its message. -/
inductive ReadResult (α : Type) where
  | success (df : α)
  | decodeError
  | otherError (msg : String)
deriving DecidableEq

/-- The fixed encoding order tried by `load_csv_with_encoding`. -/
def encodings : List String := ["cp949", "euc-kr", "utf-8"]

/-- Python `repr` of a list of strings, as an f-string renders it. -/
def pyStrList (xs : List String) : String :=
  "[" ++ String.intercalate ", " (xs.map (fun s => "'" ++ s ++ "'")) ++ "]"

/-- The fatal-error message `f"파일 읽기 오류 ({encoding}): {e}"`. -/
def readErrMsg (enc msg : String) : String :=
  "파일 읽기 오류 (" ++ enc ++ "): " ++ msg

/-- The exhausted-encodings message (data_loader.py 56). -/
def unsupportedMsg : String :=
  "지원하는 인코딩으로 파일을 읽을 수 없습니다: " ++ pyStrList encodings

/-- The `for encoding in encodings` loop of `load_csv_with_encoding`:
first success returns the table, a decode error advances to the next
encoding, any other error is fatal and names the failing encoding, and
an exhausted list yields the unsupported-encoding message. -/
def tryEncodings (file : String → ReadResult α) :
    List String → Option α × Option String
  | [] => (none, some unsupportedMsg)
  | e :: rest =>
    match file e with
    | .success df => (some df, none)
    | .decodeError => tryEncodings file rest
    | .otherError msg => (none, some (readErrMsg e msg))

/-- `load_csv_with_encoding` (data_loader.py 40-56), abstracted over the
behaviour `file : encoding ↦ outcome` of reading the CSV file. The
result is the `(DataFrame | None, error | None)` pair the function
returns; it never raises. -/
def load_csv_with_encoding (file : String → ReadResult α) :
    Option α × Option String :=
  tryEncodings file encodings

/-! ### Wide-to-long reshape (`pd.melt`, data_loader.py 124-135) -/

/-- The five metadata fields of one wide row (after the header
normalisation of data_loader.py 98-115). -/
structure MetaR where
  dayType : String    -- 요일구분
  line : String       -- 호선
  stationNo : String  -- 역번호
  station : String    -- 역명 (renamed from 출발역)
  direction : String  -- 상하선구분 (renamed from 상하구분)
deriving DecidableEq

/-- A raw CSV cell under a time-bucket column: a numeric value, a blank,
or non-numeric text.  This is the granularity at which
`str.strip` + `pd.to_numeric(errors='coerce')` acts. -/
inductive Cell where
  | num (q : ℚ)
  | blank
  | text (s : String)
deriving DecidableEq

/-- `pd.to_numeric(errors='coerce')` after `str.strip`
(data_loader.py 134-135): numeric cells keep their value, blank and
non-numeric cells become the missing marker `NaN` (`none`). -/
def toNumeric : Cell → Option ℚ
  | .num q => some q
  | .blank => none
  | .text _ => none

/-- One block of `pd.melt`: the value column `col` (cell index `j`)
paired with every row's metadata, in row order. -/
def meltBlock (rows : List (MetaR × List Cell)) (j : Nat) (col : String) :
    List (MetaR × String × Cell) :=
  rows.map (fun rc => (rc.1, col, rc.2.getD j Cell.blank))

/-- Recursion over the value columns: `pd.melt` emits one block per
value column, in column order. -/
def meltAux (rows : List (MetaR × List Cell)) :
    List String → Nat → List (MetaR × String × Cell)
  | [], _ => []
  | c :: cs, j => meltBlock rows j c ++ meltAux rows cs (j + 1)

/-- `pd.melt(df_raw, id_vars=meta, value_vars=time_cols)`
(data_loader.py 124-130): the long table, one row per
(wide row, time column) pair, blocks ordered by value column. -/
def melt (timeCols : List String) (rows : List (MetaR × List Cell)) :
    List (MetaR × String × Cell) :=
  meltAux rows timeCols 0

/-- The crowding clean-up applied to the melted table
(data_loader.py 132-135): every cell value through `toNumeric`. -/
def convertCrowding (l : List (MetaR × String × Cell)) :
    List (MetaR × String × Option ℚ) :=
  l.map (fun x => (x.1, x.2.1, toNumeric x.2.2))

/-! ### Helper lemmas -/

/-- The maximum of a list is attained by one of its elements. -/
theorem listMax_mem {l : List ℚ} {q : ℚ} (h : listMax l = some q) : q ∈ l := by
  induction l with
  | nil => simp [listMax] at h
  | cons x xs ih =>
    rw [listMax] at h
    rcases hx : listMax xs with _ | m
    · rw [hx] at h
      simp only [Option.some.injEq] at h
      simp [h]
    · rw [hx] at h
      simp only [Option.some.injEq] at h
      rcases max_choice x m with hm | hm
      · rw [← h, hm]
        exact List.mem_cons_self _ _
      · exact List.mem_cons_of_mem _ (ih (by rw [hx, ← h, hm]))

/-- Every element of a list is bounded by its maximum. -/
theorem listMax_le {l : List ℚ} {q : ℚ} (h : listMax l = some q) :
    ∀ x ∈ l, x ≤ q := by
  induction l generalizing q with
  | nil => simp
  | cons y ys ih =>
    intro x hx
    rw [listMax] at h
    rcases hy : listMax ys with _ | m
    · rw [hy] at h
      simp only [Option.some.injEq] at h
      rcases List.mem_cons.mp hx with hxy | hxys
      · subst hxy
        exact le_of_eq h
      · cases ys with
        | nil => simp at hxys
        | cons z zs =>
          rw [listMax] at hy
          rcases hzz : listMax zs with _ | w <;> rw [hzz] at hy <;> simp at hy
    · rw [hy] at h
      simp only [Option.some.injEq] at h
      rcases List.mem_cons.mp hx with hxy | hxys
      · subst hxy
        rw [← h]
        exact le_max_left _ _
      · calc x ≤ m := ih hy x hxys
          _ ≤ max y m := le_max_right _ _
          _ = q := h

/-- A frame whose crowding column is all-missing has no crowding values. -/
theorem crowdingVals_eq_nil {df : List Row} (h : ∀ r ∈ df, r.crowding = none) :
    crowdingVals df = [] :=
  List.filterMap_eq_nil_iff.mpr h

/-- Dropping the missing-crowding rows does not change the crowding
values (pandas `dropna` before a column aggregate). -/
theorem crowdingVals_filter (df : List Row) :
    crowdingVals (df.filter (fun r => r.crowding.isSome)) = crowdingVals df := by
  induction df with
  | nil => rfl
  | cons r rs ih =>
    rcases hr : r.crowding with _ | q
    · simpa [crowdingVals, List.filter_cons, hr] using ih
    · simpa [crowdingVals, List.filter_cons, hr] using ih

/-! ### Concrete frames used in the claim theorems -/

/-- A 9:00 row with crowding 100 (tied maximum, later time). -/
def exRowLate : Row :=
  ⟨"평일", "2호선", "0222", "강남", "상선", "9시00분", some 9, some 0, some 100⟩

/-- An 8:00 row with crowding 100 (tied maximum, earlier time). -/
def exRowEarly : Row :=
  ⟨"평일", "2호선", "0222", "강남", "상선", "8시00분", some 8, some 0, some 100⟩

/-- An 8:00 row whose crowding is missing. -/
def allMissingRow : Row :=
  ⟨"평일", "1호선", "0150", "서울역", "상선", "8시00분", some 8, some 0, none⟩

/-- `time_order` of a row with the `getD 0` default, used to state
sortedness hypotheses. -/
def Row.timeOrderD (r : Row) : Nat := r.timeOrder.getD 0

/-! ### Claim theorems -/

/-- Claim C4: the rollover label `"0시30분"` parses to (24, 30) with
`time_order` 1470; `"8시30분"` parses to (8, 30) with `time_order` 510;
the rollover bucket sorts strictly after `"23시30분"` (1410); and a label
without the `<digits>시<digits>분` pattern parses to `(none, none)`. -/
theorem C4_rollover_parsing :
    parse_time_column "0시30분" = (some 24, some 30) ∧
    time_order (parse_time_column "0시30분") = some 1470 ∧
    parse_time_column "8시30분" = (some 8, some 30) ∧
    time_order (parse_time_column "8시30분") = some 510 ∧
    time_order (parse_time_column "23시30분") = some 1410 ∧
    (1410 : Nat) < 1470 ∧
    parse_time_column "시간분" = (none, none) := by decide

/-- Claim C2: the empty frame gives `calculate_peak = (0, "-")` (also
for an all-missing crowding column), `calculate_commute_avg = 0`,
`calculate_evening_avg = 0`, and `get_peak_top10 = []`; all four
operations are total. -/
theorem C2_empty_input_safety (df : List Row)
    (hall : ∀ r ∈ df, r.crowding = none) :
    calculate_peak df = (0, "-") ∧
    calculate_peak [] = (0, "-") ∧
    calculate_commute_avg [] true = some 0 ∧
    calculate_commute_avg [] false = some 0 ∧
    calculate_evening_avg [] true = some 0 ∧
    calculate_evening_avg [] false = some 0 ∧
    get_peak_top10 [] = [] := by
  refine ⟨?_, rfl, rfl, rfl, rfl, rfl, rfl⟩
  unfold calculate_peak
  rw [crowdingVals_eq_nil hall]
  rfl

/-- Witness for C2 at a one-row all-missing frame. -/
theorem C2_witness :
    calculate_peak [allMissingRow] = (0, "-") ∧ get_peak_top10 [] = [] :=
  ⟨(C2_empty_input_safety [allMissingRow] (by decide)).1,
   (C2_empty_input_safety [allMissingRow] (by decide)).2.2.2.2.2.2⟩

/-- Counterexample to claim C9 as stated: `"25시00분"` parses
successfully, yet its hour 25 is outside 1..24 (the regex accepts any
digit run as the hour and only hour 0 is remapped). -/
theorem C9_counterexample :
    parse_time_column "25시00분" = (some 25, some 0) ∧ ¬ (25 ≤ 24) := by
  decide

/-- Claim C9 (amended): every successfully parsed label yields an hour
`≥ 1` — only a raw hour 0 is remapped (to 24) and every other raw hour
is returned unchanged, so no parsed record carries hour 0; the parsed
hour is bounded by 24 whenever the raw hour is a real clock hour
(≤ 23). -/
theorem C9_hour_never_zero (s : String) (h m : Nat)
    (hp : parse_time_column s = (some h, some m)) :
    1 ≤ h ∧ ∃ h0, searchTime s.data = some (h0, m) ∧
      h = (if h0 = 0 then 24 else h0) ∧ (h0 ≤ 23 → h ≤ 24) := by
  unfold parse_time_column at hp
  rcases hs : searchTime s.data with _ | hm0
  · rw [hs] at hp
    simp at hp
  · rcases hm0 with ⟨h0, m0⟩
    rw [hs] at hp
    simp only [Prod.mk.injEq, Option.some.injEq] at hp
    obtain ⟨hh, hmm⟩ := hp
    subst hmm
    refine ⟨?_, h0, rfl, hh.symm, ?_⟩
    · by_cases h0z : h0 = 0
      · simp [h0z] at hh
        omega
      · simp [h0z] at hh
        omega
    · intro hle
      by_cases h0z : h0 = 0 <;> simp [h0z] at hh <;> omega

/-- Witness for C9 at the rollover label. -/
theorem C9_witness :
    1 ≤ 24 ∧ ∃ h0, searchTime ("0시30분").data = some (h0, 30) ∧
      (24 : Nat) = (if h0 = 0 then 24 else h0) ∧ (h0 ≤ 23 → (24 : Nat) ≤ 24) :=
  C9_hour_never_zero "0시30분" 24 30 (by decide)

/-- Counterexample to claim C1 as stated: two rows tie at the maximal
crowding 100; the earlier row (time_order 480) comes second in frame
order, and `calculate_peak` returns the 9:00 label of the first row —
the tie-break follows frame row order (`iloc[0]`), not `time_order`. -/
theorem C1_counterexample :
    exRowLate.crowding = some 100 ∧ exRowEarly.crowding = some 100 ∧
    listMax (crowdingVals [exRowLate, exRowEarly]) = some 100 ∧
    exRowEarly.timeOrder = some 480 ∧ exRowLate.timeOrder = some 540 ∧
    calculate_peak [exRowLate, exRowEarly] = (100, "9시00분") ∧
    (calculate_peak [exRowLate, exRowEarly]).2 ≠ exRowEarly.time := by
  decide

/-- Claim C1 (amended): `calculate_peak` returns the maximal non-missing
crowding paired with the time label of the first row in frame order
attaining it (`iloc[0]`); only when the given frame is sorted ascending
by `time_order` does that first row have the smallest `time_order` among
the equal maxima.  `load_data` sorts by (line, stationNo, dayType,
direction, time_order), so a frame spanning several groups is ascending
only block-wise, and the hypothesis holds for single-group frames, not
in general. -/
theorem C1_peak_earliest_when_sorted (df : List Row) (q : ℚ)
    (hmax : listMax (crowdingVals df) = some q)
    (hsorted : df.Pairwise (fun a b => a.timeOrderD ≤ b.timeOrderD)) :
    ∃ r ∈ df, calculate_peak df = (q, r.time) ∧ r.crowding = some q ∧
      (∀ r' ∈ df, r'.crowding = some q → r.timeOrderD ≤ r'.timeOrderD) ∧
      (∀ r' ∈ df, ∀ x ∈ r'.crowding, x ≤ q) := by
  have hmem : q ∈ crowdingVals df := listMax_mem hmax
  obtain ⟨r0, hr0df, hr0c⟩ := List.mem_filterMap.mp hmem
  have hr0vf : r0 ∈ df.filter (fun r => r.crowding.isSome) :=
    List.mem_filter.mpr ⟨hr0df, by simp [hr0c]⟩
  have hfind :
      ((df.filter (fun r => r.crowding.isSome)).find?
        (fun r => decide (r.crowding = some q))).isSome := by
    rw [List.find?_isSome]
    exact ⟨r0, hr0vf, by simp [hr0c]⟩
  obtain ⟨r, hr⟩ := Option.isSome_iff_exists.mp hfind
  obtain ⟨hpr, as, bs, hsplit, hnone⟩ := List.find?_eq_some.mp hr
  have hrvf : r ∈ df.filter (fun r => r.crowding.isSome) :=
    List.mem_of_find?_eq_some hr
  have hrdf : r ∈ df := (List.mem_filter.mp hrvf).1
  have hrc : r.crowding = some q := by
    simpa using hpr
  have hcp : calculate_peak df = (q, r.time) := by
    unfold calculate_peak
    rw [hmax]
    simp only []
    rw [hr]
  refine ⟨r, hrdf, hcp, hrc, ?_, ?_⟩
  · intro r' hr'df hr'c
    have hr'vf : r' ∈ df.filter (fun r => r.crowding.isSome) :=
      List.mem_filter.mpr ⟨hr'df, by simp [hr'c]⟩
    rw [hsplit] at hr'vf
    rcases List.mem_append.mp hr'vf with hin | hin
    · exfalso
      have := hnone r' hin
      simp [hr'c] at this
    · rcases List.mem_cons.mp hin with heq | hin2
      · subst heq
        exact le_refl _
      · have hpvf : (df.filter (fun r => r.crowding.isSome)).Pairwise
            (fun a b => a.timeOrderD ≤ b.timeOrderD) := hsorted.filter _
        rw [hsplit] at hpvf
        have h2 := (List.pairwise_append.mp hpvf).2.1
        exact (List.pairwise_cons.mp h2).1 r' hin2
  · intro r' hr'df x hx
    have : x ∈ crowdingVals df :=
      List.mem_filterMap.mpr ⟨r', hr'df, hx⟩
    exact listMax_le hmax x this

/-- Witness for the amended C1: on the time-sorted two-row frame the
peak time is the earlier 8:00 label. -/
theorem C1_witness :
    ∃ r ∈ [exRowEarly, exRowLate],
      calculate_peak [exRowEarly, exRowLate] = (100, r.time) ∧
      r.crowding = some 100 ∧
      (∀ r' ∈ [exRowEarly, exRowLate], r'.crowding = some 100 →
        r.timeOrderD ≤ r'.timeOrderD) ∧
      (∀ r' ∈ [exRowEarly, exRowLate], ∀ x ∈ r'.crowding, x ≤ 100) :=
  C1_peak_earliest_when_sorted [exRowEarly, exRowLate] 100 (by decide) (by decide)

/-- Modelled from the spec: the hour-window membership test of
`windowed_average(df, lo, hi, inclusive_hi)` — `hour ∈ [lo, hi]` when
`inclusive_hi`, `hour ∈ [lo, hi)` otherwise; a missing hour is never in
the window. -/
def specWindow (lo hi : Nat) (inclusive_hi : Bool) (r : Row) : Bool :=
  match r.hour with
  | some h => decide (lo ≤ h) &&
      (if inclusive_hi then decide (h ≤ hi) else decide (h < hi))
  | none => false

/-- Modelled from the spec: `windowed_average(df, lo, hi, inclusive_hi)`
— mean of `crowding` over the rows whose hour lies in the window; an
empty window yields `0.0`.  Stated from the spec's words to compare the
two fixed instantiations of the source against it. -/
def windowed_average (df : List Row) (lo hi : Nat) (inclusive_hi : Bool) :
    Option ℚ :=
  let tf := df.filter (specWindow lo hi inclusive_hi)
  if tf.isEmpty then some 0 else seriesMean tf

/-- Hour-7 row with crowding 10. -/
def commuteRow7 : Row :=
  ⟨"평일", "1호선", "0150", "서울역", "상선", "7시00분", some 7, some 0, some 10⟩

/-- Hour-8 row with crowding 20. -/
def commuteRow8 : Row :=
  ⟨"평일", "1호선", "0150", "서울역", "상선", "8시00분", some 8, some 0, some 20⟩

/-- Hour-9 row with crowding 30. -/
def commuteRow9 : Row :=
  ⟨"평일", "1호선", "0150", "서울역", "상선", "9시00분", some 9, some 0, some 30⟩

/-- Claim C3: `calculate_commute_avg` is the spec's `windowed_average`
at lo=7, hi=9 and `calculate_evening_avg` at lo=17, hi=20, the flag
choosing `[lo, hi]` versus `[lo, hi)`; on one row per hour 7, 8, 9 with
crowding 10, 20, 30 the commute average is 20 inclusive and 15
exclusive. -/
theorem C3_windowed_average_boundary (df : List Row) (b : Bool) :
    calculate_commute_avg df b = windowed_average df 7 9 b ∧
    calculate_evening_avg df b = windowed_average df 17 20 b ∧
    calculate_commute_avg [commuteRow7, commuteRow8, commuteRow9] true = some 20 ∧
    calculate_commute_avg [commuteRow7, commuteRow8, commuteRow9] false = some 15 := by
  have hcfilter : commute_filter df b = df.filter (specWindow 7 9 b) := by
    cases b <;>
      simp only [commute_filter, if_true, if_false, Bool.false_eq_true] <;>
      apply List.filter_congr <;>
      intro r _ <;>
      rcases hh : r.hour with _ | h <;>
      simp [hourGe, hourLe, hourLt, specWindow, hh]
  have hefilter : evening_filter df b = df.filter (specWindow 17 20 b) := by
    cases b <;>
      simp only [evening_filter, if_true, if_false, Bool.false_eq_true] <;>
      apply List.filter_congr <;>
      intro r _ <;>
      rcases hh : r.hour with _ | h <;>
      simp [hourGe, hourLe, hourLt, specWindow, hh]
  refine ⟨?_, ?_, ?_, ?_⟩
  · unfold calculate_commute_avg windowed_average
    rw [hcfilter]
    by_cases hdf : df.isEmpty
    · have : df = [] := List.isEmpty_iff.mp hdf
      subst this
      simp
    · simp [hdf]
  · unfold calculate_evening_avg windowed_average
    rw [hefilter]
    by_cases hdf : df.isEmpty
    · have : df = [] := List.isEmpty_iff.mp hdf
      subst this
      simp
    · simp [hdf]
  · have h : calculate_commute_avg [commuteRow7, commuteRow8, commuteRow9] true =
        meanQ [10, 20, 30] := by
      simp [calculate_commute_avg, commute_filter, hourGe, hourLe, seriesMean,
        crowdingVals, commuteRow7, commuteRow8, commuteRow9]
    rw [h]
    unfold meanQ
    norm_num
  · have h : calculate_commute_avg [commuteRow7, commuteRow8, commuteRow9] false =
        meanQ [10, 20] := by
      simp [calculate_commute_avg, commute_filter, hourGe, hourLt, seriesMean,
        crowdingVals, commuteRow7, commuteRow8, commuteRow9]
    rw [h]
    unfold meanQ
    norm_num

/-- Claim C7: `load_csv_with_encoding` tries cp949, euc-kr, utf-8 in
order and returns the parsed table of the first success as
`(table, None)`; a decode failure advances to the next encoding; any
other failure is fatal with `(None, error)` naming the failing encoding;
with no success it returns `(None, unsupported-encodings error)` listing
all three encodings.  The equation covers every behaviour of the file,
so the result is always a pair — nothing is raised. -/
theorem C7_encoding_fallback {α : Type} (file : String → ReadResult α) :
    load_csv_with_encoding file =
      (match file "cp949" with
       | .success df => (some df, none)
       | .otherError msg => (none, some (readErrMsg "cp949" msg))
       | .decodeError =>
         match file "euc-kr" with
         | .success df => (some df, none)
         | .otherError msg => (none, some (readErrMsg "euc-kr" msg))
         | .decodeError =>
           match file "utf-8" with
           | .success df => (some df, none)
           | .otherError msg => (none, some (readErrMsg "utf-8" msg))
           | .decodeError => (none, some unsupportedMsg)) := by
  rcases h1 : file "cp949" with d1 | _ | m1
  · simp [load_csv_with_encoding, encodings, tryEncodings, h1]
  · rcases h2 : file "euc-kr" with d2 | _ | m2
    · simp [load_csv_with_encoding, encodings, tryEncodings, h1, h2]
    · rcases h3 : file "utf-8" with d3 | _ | m3 <;>
        simp [load_csv_with_encoding, encodings, tryEncodings, h1, h2, h3]
    · simp [load_csv_with_encoding, encodings, tryEncodings, h1, h2]
  · simp [load_csv_with_encoding, encodings, tryEncodings, h1]

/-- An 8:30 row with crowding 50, paired with the missing-value row. -/
def halfRow : Row :=
  ⟨"평일", "1호선", "0150", "서울역", "상선", "8시30분", some 8, some 30, some 50⟩

/-- Claim C8: missing crowding values are excluded, never zeroed —
`calculate_peak` is unchanged by dropping the missing rows first, the
column mean only sees non-missing values, and on a frame of one missing
row and one row of 50 the commute mean is 50 (not 25) and the peak comes
from the non-missing row. -/
theorem C8_missing_excluded (df : List Row) :
    calculate_peak df = calculate_peak (df.filter (fun r => r.crowding.isSome)) ∧
    seriesMean df = seriesMean (df.filter (fun r => r.crowding.isSome)) ∧
    calculate_commute_avg [allMissingRow, halfRow] true = some 50 ∧
    calculate_peak [allMissingRow, halfRow] = (50, "8시30분") := by
  have hidem : (df.filter (fun r => r.crowding.isSome)).filter
      (fun r => r.crowding.isSome) = df.filter (fun r => r.crowding.isSome) := by
    rw [List.filter_filter]
    apply List.filter_congr
    intro r _
    exact Bool.and_self _
  refine ⟨?_, ?_, ?_, by decide⟩
  · unfold calculate_peak
    rw [crowdingVals_filter, hidem]
  · unfold seriesMean
    rw [crowdingVals_filter]
  · have h : calculate_commute_avg [allMissingRow, halfRow] true = meanQ [50] := by
      simp [calculate_commute_avg, commute_filter, hourGe, hourLe, seriesMean,
        crowdingVals, allMissingRow, halfRow]
    rw [h]
    unfold meanQ
    norm_num

/-- An hour-18 row with missing crowding. -/
def eveningMissingRow : Row :=
  ⟨"평일", "1호선", "0150", "서울역", "상선", "18시00분", some 18, some 0, none⟩

/-- Claim C10: when the hour window selects at least one row but every
selected crowding value is missing, the averages return `NaN` (`none`),
not `0.0` — the zero fallback fires only for an empty window. -/
theorem C10_all_missing_window_is_nan (df1 df2 : List Row) (b1 b2 : Bool)
    (h1 : commute_filter df1 b1 ≠ [])
    (h2 : ∀ r ∈ commute_filter df1 b1, r.crowding = none)
    (h3 : evening_filter df2 b2 ≠ [])
    (h4 : ∀ r ∈ evening_filter df2 b2, r.crowding = none) :
    calculate_commute_avg df1 b1 = none ∧
    calculate_commute_avg df1 b1 ≠ some 0 ∧
    calculate_evening_avg df2 b2 = none ∧
    calculate_evening_avg df2 b2 ≠ some 0 := by
  have hd1 : ¬ df1.isEmpty := by
    intro hh
    have : df1 = [] := List.isEmpty_iff.mp hh
    subst this
    exact h1 (by cases b1 <;> rfl)
  have hd2 : ¬ df2.isEmpty := by
    intro hh
    have : df2 = [] := List.isEmpty_iff.mp hh
    subst this
    exact h3 (by cases b2 <;> rfl)
  have hc : calculate_commute_avg df1 b1 = none := by
    unfold calculate_commute_avg
    rw [if_neg hd1, if_neg (by simpa [List.isEmpty_iff] using h1)]
    unfold seriesMean
    rw [crowdingVals_eq_nil h2]
    rfl
  have he : calculate_evening_avg df2 b2 = none := by
    unfold calculate_evening_avg
    rw [if_neg hd2, if_neg (by simpa [List.isEmpty_iff] using h3)]
    unfold seriesMean
    rw [crowdingVals_eq_nil h4]
    rfl
  exact ⟨hc, by rw [hc]; simp, he, by rw [he]; simp⟩

/-- Witness for C10 at one-row windows whose only crowding is missing. -/
theorem C10_witness :
    calculate_commute_avg [allMissingRow] true = none ∧
    calculate_commute_avg [allMissingRow] true ≠ some 0 ∧
    calculate_evening_avg [eveningMissingRow] true = none ∧
    calculate_evening_avg [eveningMissingRow] true ≠ some 0 :=
  C10_all_missing_window_is_nan [allMissingRow] [eveningMissingRow] true true
    (by decide) (by decide) (by decide) (by decide)

/-! ### Reshape losslessness lemmas -/

/-- `pd.melt` emits one block per value column, so the long length is
columns × rows. -/
theorem meltAux_length (rows : List (MetaR × List Cell)) (cols : List String)
    (j : Nat) : (meltAux rows cols j).length = cols.length * rows.length := by
  induction cols generalizing j with
  | nil => simp [meltAux]
  | cons c cs ih =>
    simp [meltAux, meltBlock, ih]
    ring

/-- A block for a different value column contributes nothing to the
rows of column `c`. -/
theorem filter_meltBlock_ne (rows : List (MetaR × List Cell)) (j : Nat)
    {c' c : String} (m : MetaR) (h : c' ≠ c) :
    (meltBlock rows j c').filter (fun x => decide (x.1 = m ∧ x.2.1 = c)) = [] := by
  induction rows with
  | nil => rfl
  | cons rc rcs ih =>
    simpa [meltBlock, List.filter_cons, h] using ih

/-- Blocks of columns not containing `c` contribute nothing to the rows
of column `c`. -/
theorem filter_meltAux_notmem (rows : List (MetaR × List Cell))
    (cols : List String) (j : Nat) {c : String} (m : MetaR) (h : c ∉ cols) :
    (meltAux rows cols j).filter (fun x => decide (x.1 = m ∧ x.2.1 = c)) = [] := by
  induction cols generalizing j with
  | nil => rfl
  | cons c' cs ih =>
    have hne : c' ≠ c := by
      intro hh
      exact h (by rw [← hh]; exact List.mem_cons_self c' cs)
    have hmem : c ∉ cs := fun hh => h (List.mem_cons_of_mem _ hh)
    rw [meltAux, List.filter_append, filter_meltBlock_ne rows j m hne, ih (j+1) hmem]
    rfl

/-- A block over rows none of which carry metadata `m` contributes no
row keyed by `m`. -/
theorem filter_meltBlock_notfst (rows : List (MetaR × List Cell)) (j : Nat)
    (c : String) {m : MetaR} (h : m ∉ rows.map Prod.fst) :
    (meltBlock rows j c).filter (fun x => decide (x.1 = m ∧ x.2.1 = c)) = [] := by
  induction rows with
  | nil => rfl
  | cons rc rcs ih =>
    simp only [List.map_cons, List.mem_cons, not_or] at h
    have hne : ¬ (rc.1 = m) := fun hh => h.1 hh.symm
    simpa [meltBlock, List.filter_cons, hne] using ih h.2

/-- In a block of column `c`, the rows keyed by a metadata tuple that
occurs once are exactly the one melted cell of that wide row. -/
theorem filter_meltBlock_eq (rows : List (MetaR × List Cell)) (j : Nat)
    (c : String) {m : MetaR} {cells : List Cell}
    (hmem : (m, cells) ∈ rows) (hmetas : (rows.map Prod.fst).Nodup) :
    (meltBlock rows j c).filter (fun x => decide (x.1 = m ∧ x.2.1 = c)) =
      [(m, c, cells.getD j Cell.blank)] := by
  induction rows with
  | nil => simp at hmem
  | cons rc rcs ih =>
    simp only [List.map_cons, List.nodup_cons] at hmetas
    rcases List.mem_cons.mp hmem with heq | hmem2
    · subst heq
      have hrest : (meltBlock rcs j c).filter
          (fun x => decide (x.1 = m ∧ x.2.1 = c)) = [] :=
        filter_meltBlock_notfst rcs j c hmetas.1
      simpa [meltBlock, List.filter_cons] using hrest
    · have hne : ¬ (rc.1 = m) := by
        intro hh
        exact hmetas.1 (hh ▸ (List.mem_map.mpr ⟨(m, cells), hmem2, rfl⟩))
      simpa [meltBlock, List.filter_cons, hne] using ih hmem2 hmetas.2

/-- The melted rows keyed by an occurring (metadata, column `k`) pair
are exactly the one corresponding wide cell. -/
theorem filter_meltAux_unique (rows : List (MetaR × List Cell))
    (cols : List String) (j k : Nat) {m : MetaR} {cells : List Cell}
    (hmem : (m, cells) ∈ rows) (hmetas : (rows.map Prod.fst).Nodup)
    (hcols : cols.Nodup) (hk : k < cols.length) :
    (meltAux rows cols j).filter
        (fun x => decide (x.1 = m ∧ x.2.1 = cols.getD k "")) =
      [(m, cols.getD k "", cells.getD (j + k) Cell.blank)] := by
  induction cols generalizing j k with
  | nil => simp at hk
  | cons c cs ih =>
    simp only [List.nodup_cons] at hcols
    cases k with
    | zero =>
      have hgd : (c :: cs).getD 0 "" = c := rfl
      rw [hgd, meltAux, List.filter_append,
        filter_meltBlock_eq rows j c hmem hmetas,
        filter_meltAux_notmem rows cs (j + 1) m hcols.1]
      simp
    | succ k' =>
      have hk' : k' < cs.length := Nat.lt_of_succ_lt_succ hk
      have hgd : (c :: cs).getD (k' + 1) "" = cs.getD k' "" := rfl
      have hcmem : cs.getD k' "" ∈ cs := by
        rw [List.getD_eq_getElem?_getD, List.getElem?_eq_getElem hk']
        exact List.getElem_mem hk'
      have hne : c ≠ cs.getD k' "" := fun hh => hcols.1 (hh ▸ hcmem)
      rw [hgd, meltAux, List.filter_append,
        filter_meltBlock_ne rows j m hne,
        ih (j + 1) k' hcols.2 hk']
      have : j + 1 + k' = j + (k' + 1) := by omega
      rw [this]
      rfl

/-- The numeric conversion commutes with key-filtering, since it leaves
the metadata and time-label fields untouched. -/
theorem convertCrowding_filter (l : List (MetaR × String × Cell))
    (m : MetaR) (c : String) :
    (convertCrowding l).filter (fun x => decide (x.1 = m ∧ x.2.1 = c)) =
      convertCrowding (l.filter (fun x => decide (x.1 = m ∧ x.2.1 = c))) := by
  induction l with
  | nil => rfl
  | cons x xs ih =>
    by_cases hx : x.1 = m ∧ x.2.1 = c
    · simpa [convertCrowding, List.filter_cons, hx] using ih
    · simpa [convertCrowding, List.filter_cons, hx] using ih

/-- Claim C5: for a wide table with `M` metadata rows and `T` time
columns the melted table has exactly `M × T` rows, and for every
(metadata-tuple, time-column `k`) pair of the wide table the long rows
carrying that key are exactly one row holding the original cell —
unchanged before conversion, and sent through
`to_numeric(errors='coerce')` (missing for blank or non-numeric) after
it.  No row or cell is dropped. -/
theorem C5_reshape_lossless (timeCols : List String)
    (rows : List (MetaR × List Cell))
    (hmetas : (rows.map Prod.fst).Nodup)
    (hcols : timeCols.Nodup) :
    (melt timeCols rows).length = rows.length * timeCols.length ∧
    (∀ m cells, (m, cells) ∈ rows → ∀ k, k < timeCols.length →
      (melt timeCols rows).filter
          (fun x => decide (x.1 = m ∧ x.2.1 = timeCols.getD k "")) =
        [(m, timeCols.getD k "", cells.getD k Cell.blank)] ∧
      (convertCrowding (melt timeCols rows)).filter
          (fun x => decide (x.1 = m ∧ x.2.1 = timeCols.getD k "")) =
        [(m, timeCols.getD k "", toNumeric (cells.getD k Cell.blank))]) := by
  constructor
  · rw [melt, meltAux_length]
    exact Nat.mul_comm _ _
  · intro m cells hmem k hk
    have h1 : (melt timeCols rows).filter
        (fun x => decide (x.1 = m ∧ x.2.1 = timeCols.getD k "")) =
        [(m, timeCols.getD k "", cells.getD k Cell.blank)] := by
      have := filter_meltAux_unique rows timeCols 0 k hmem hmetas hcols hk
      rw [Nat.zero_add] at this
      exact this
    refine ⟨h1, ?_⟩
    rw [convertCrowding_filter, h1]
    rfl

/-- A wide row with a numeric 7:00 cell and a blank 8:00 cell. -/
def wideRowA : MetaR × List Cell :=
  (⟨"평일", "1호선", "0150", "서울역", "상선"⟩, [Cell.num 40, Cell.blank])

/-- A wide row with a numeric 7:00 cell and a non-numeric 8:00 cell. -/
def wideRowB : MetaR × List Cell :=
  (⟨"평일", "1호선", "0151", "시청", "상선"⟩, [Cell.num 52, Cell.text "x"])

/-- Witness for C5 on a 2×2 wide table: 4 long rows, and the blank 8:00
cell of the first wide row appears exactly once, as missing. -/
theorem C5_witness :
    (melt ["7시00분", "8시00분"] [wideRowA, wideRowB]).length = 2 * 2 ∧
    (convertCrowding (melt ["7시00분", "8시00분"] [wideRowA, wideRowB])).filter
        (fun x => decide (x.1 = wideRowA.1 ∧ x.2.1 = ["7시00분", "8시00분"].getD 1 "")) =
      [(wideRowA.1, ["7시00분", "8시00분"].getD 1 "", toNumeric (wideRowA.2.getD 1 Cell.blank))] :=
  ⟨(C5_reshape_lossless ["7시00분", "8시00분"] [wideRowA, wideRowB]
      (by decide) (by decide)).1,
   ((C5_reshape_lossless ["7시00분", "8시00분"] [wideRowA, wideRowB]
      (by decide) (by decide)).2 wideRowA.1 wideRowA.2 (by simp)
      1 (by decide)).2⟩

end Crowding
